import Mathlib

/-!
Verification of the airweave retry/backoff helpers
(`backend/airweave/platform/sources/retry_helpers.py`) and the filename
sanitizer (`backend/airweave/platform/utils/filename_utils.py`).

The Python functions are shallowly embedded: exceptions become a tagged
`Failure` type (HTTP status failures carry their status code and the content
of the `Retry-After` response header; timeouts carry their sub-kind), floats
become rationals, and the two external sources of nondeterminism are made
explicit parameters: the jitter draw `u` (the value `random.uniform(0, x)`
is modelled as `u * x` with `0 ≤ u ≤ 1`) and the clock (an HTTP-date header
is represented by its already-computed delta from `now`).
-/

namespace Airweave

/-- Sub-kind of a timeout exception: `httpx.ConnectTimeout` or
`httpx.ReadTimeout`. -/
inductive TimeoutKind where
  | connect
  | read
deriving DecidableEq

/-- The content of a present, non-empty `Retry-After` header, relative to the
two parsers the source applies in order and to the wall clock:

* `numeric s` — `float(retry_after)` succeeds with value `s`;
* `httpDate d` — `float` raises, `parsedate_to_datetime` succeeds, and
  `(dt - datetime.now(timezone.utc)).total_seconds()` equals `d` (possibly
  negative for a date in the past);
* `unparseable` — both parses raise (also covers float specials such as NaN,
  which the source's `wait_seconds > 0.0` comparison rejects the same way). -/
inductive RetryAfterVal where
  | numeric (seconds : ℚ)
  | httpDate (deltaSeconds : ℚ)
  | unparseable
deriving DecidableEq

/-- A failed attempt, as classified by `isinstance` checks in the source.

* `httpStatus code retryAfter` — an `httpx.HTTPStatusError`; `retryAfter` is
  `exception.response.headers.get("Retry-After")`, with `none` for an absent
  (or empty, hence falsy) header;
* `timeout kind` — `httpx.ConnectTimeout` / `httpx.ReadTimeout`;
* `other` — any other exception. -/
inductive Failure where
  | httpStatus (statusCode : ℕ) (retryAfter : Option RetryAfterVal)
  | timeout (kind : TimeoutKind)
  | other
deriving DecidableEq

/-- `should_retry_on_rate_limit`: true iff the exception is an
`httpx.HTTPStatusError` whose response status code is 429. -/
def should_retry_on_rate_limit : Failure → Bool
  | .httpStatus code _ => code == 429
  | _ => false

/-- `should_retry_on_timeout`: true iff the exception is an
`httpx.ConnectTimeout` or `httpx.ReadTimeout`. -/
def should_retry_on_timeout : Failure → Bool
  | .timeout _ => true
  | _ => false

/-- `should_retry_on_rate_limit_or_timeout`: the disjunction of the two
classifiers above. -/
def should_retry_on_rate_limit_or_timeout (f : Failure) : Bool :=
  should_retry_on_rate_limit f || should_retry_on_timeout f

/-- The part of the tenacity `retry_state` the wait strategy reads:
`retry_state.outcome.exception()` (`none` when the outcome was not an
exception) and `retry_state.attempt_number` (`none` models a missing or
`None` attribute, so that `getattr(retry_state, "attempt_number", 1)`
returns the default). -/
structure RetryState where
  outcomeException : Option Failure
  attemptNumber : Option ℕ

/-- `getattr(retry_state, "attempt_number", 1) or 1`: a missing, `None`, or
zero (falsy) attempt number is replaced by 1. -/
def normAttempt : Option ℕ → ℕ
  | none => 1
  | some 0 => 1
  | some n => n

/-- Modelled from the spec: tenacity's
`wait_exponential(multiplier=1, min=lo, max=hi)(retry_state)`, the library
call in the dead `else` arms of the truthiness tests
`exp_429 if exp_429 else ...` / `exp_to if exp_to else ...` (tenacity is an
external dependency, not under the repository's source). It clamps
`multiplier * 2 ** attempt_number` into `[lo, hi]`. Both call sites are
unreachable: see `exp429_pos` / `expTo_pos`. -/
def wait_exponential (lo hi : ℚ) (attempt : ℕ) : ℚ :=
  max lo (min hi ((2 : ℚ) ^ attempt))

/-- `wait_rate_limit_with_backoff(retry_state)`, with the jitter draw `u`
made explicit: every `random.uniform(0.0, 0.1 * w)` in the source is
modelled as `u * (1/10 * w)`.

Control flow mirrors the source: the 429 branch first consults the
`Retry-After` header (numeric parse, then HTTP-date parse with the delta
floored at 0; each successful parse is then floored at 1.0); if the
resulting `wait_seconds` passes `if wait_seconds and wait_seconds > 0.0`
(over ℚ: `0 < waitSeconds`), the wait is capped at 120 and jittered,
otherwise control falls through to the 429 exponential fallback — the same
code that runs when the header is absent.  Every non-429 exception (and a
missing exception) takes the final exponential path. -/
def wait_rate_limit_with_backoff (rs : RetryState) (u : ℚ) : ℚ :=
  let attempt := normAttempt rs.attemptNumber
  let exp429 : ℚ := min 30 ((2 : ℚ) ^ (attempt - 1))
  let expTo : ℚ := min 10 ((2 : ℚ) ^ (attempt - 1))
  match rs.outcomeException with
  | some (.httpStatus code retryAfter) =>
    if code = 429 then
      match retryAfter with
      | some ra =>
        let waitSeconds : ℚ :=
          match ra with
          | .numeric s => max s 1
          | .httpDate d => max (max d 0) 1
          | .unparseable => 0
        if 0 < waitSeconds then
          let wait := min waitSeconds 120
          wait + u * (1 / 10 * wait)
        else
          -- fall-through target: exponential fallback for 429
          let base := if exp429 = 0 then wait_exponential 2 30 attempt else exp429
          base + u * (1 / 10 * base)
      | none =>
        let base := if exp429 = 0 then wait_exponential 2 30 attempt else exp429
        base + u * (1 / 10 * base)
    else
      let base := if expTo = 0 then wait_exponential 2 10 attempt else expTo
      base + u * (1 / 10 * base)
  | _ =>
    let base := if expTo = 0 then wait_exponential 2 10 attempt else expTo
    base + u * (1 / 10 * base)

/-- Whether the wait strategy's input holds a retryable exception (the
classifier lifted to the `Option` the strategy actually receives). -/
def retryable_state (exc : Option Failure) : Bool :=
  match exc with
  | some f => should_retry_on_rate_limit_or_timeout f
  | none => false

/-! ### Basic facts about the embedded definitions -/

theorem normAttempt_pos (aN : Option ℕ) : 1 ≤ normAttempt aN := by
  match aN with
  | none => exact le_refl 1
  | some 0 => exact le_refl 1
  | some (n + 1) => exact Nat.succ_le_succ (Nat.zero_le n)

theorem normAttempt_some {a : ℕ} (ha : 1 ≤ a) : normAttempt (some a) = a := by
  match a, ha with
  | n + 1, _ => rfl

/-- `exp_429 = min(30.0, 2.0 ** (attempt - 1))` is strictly positive, so the
truthiness test `exp_429 if exp_429 else ...` never reaches the tenacity
fallback. -/
theorem exp429_pos (n : ℕ) : 0 < min (30 : ℚ) ((2 : ℚ) ^ n) :=
  lt_min (by norm_num) (pow_pos (by norm_num) n)

/-- `exp_to = min(10.0, 2.0 ** (attempt - 1))` is strictly positive, so the
truthiness test `exp_to if exp_to else ...` never reaches the tenacity
fallback. -/
theorem expTo_pos (n : ℕ) : 0 < min (10 : ℚ) ((2 : ℚ) ^ n) :=
  lt_min (by norm_num) (pow_pos (by norm_num) n)

/-- Adding `u`-scaled jitter on top of a base in `[0, cap]` stays below
`cap + cap/10` when `u ≤ 1`. -/
theorem jitter_le {b c u : ℚ} (hb : 0 ≤ b) (hbc : b ≤ c) (hu0 : 0 ≤ u)
    (hu1 : u ≤ 1) : b + u * (1 / 10 * b) ≤ c + 1 / 10 * c := by
  nlinarith

/-- Jitter is additive: the result never drops below the base. -/
theorem jitter_ge {b u : ℚ} (hb : 0 ≤ b) (hu0 : 0 ≤ u) :
    b ≤ b + u * (1 / 10 * b) := by
  nlinarith

/-- For a fixed nonnegative jitter draw, the jittered wait is monotone in the
base. -/
theorem jitter_mono {b₁ b₂ u : ℚ} (hb : 0 ≤ b₁) (hbb : b₁ ≤ b₂) (hu : 0 ≤ u) :
    b₁ + u * (1 / 10 * b₁) ≤ b₂ + u * (1 / 10 * b₂) := by
  nlinarith

/-! ### Evaluation of `wait_rate_limit_with_backoff` on each control path -/

/-- Timeout exceptions take the final exponential path. -/
theorem wait_timeout_eq (k : TimeoutKind) (aN : Option ℕ) (u : ℚ) :
    wait_rate_limit_with_backoff ⟨some (.timeout k), aN⟩ u =
      min 10 ((2 : ℚ) ^ (normAttempt aN - 1)) +
        u * (1 / 10 * min 10 ((2 : ℚ) ^ (normAttempt aN - 1))) := by
  have h := (expTo_pos (normAttempt aN - 1)).ne'
  simp [wait_rate_limit_with_backoff, h]

/-- A missing exception takes the final exponential path. -/
theorem wait_none_eq (aN : Option ℕ) (u : ℚ) :
    wait_rate_limit_with_backoff ⟨none, aN⟩ u =
      min 10 ((2 : ℚ) ^ (normAttempt aN - 1)) +
        u * (1 / 10 * min 10 ((2 : ℚ) ^ (normAttempt aN - 1))) := by
  have h := (expTo_pos (normAttempt aN - 1)).ne'
  simp [wait_rate_limit_with_backoff, h]

/-- A generic exception takes the final exponential path. -/
theorem wait_other_eq (aN : Option ℕ) (u : ℚ) :
    wait_rate_limit_with_backoff ⟨some .other, aN⟩ u =
      min 10 ((2 : ℚ) ^ (normAttempt aN - 1)) +
        u * (1 / 10 * min 10 ((2 : ℚ) ^ (normAttempt aN - 1))) := by
  have h := (expTo_pos (normAttempt aN - 1)).ne'
  simp [wait_rate_limit_with_backoff, h]

/-- A non-429 HTTP status failure takes the final exponential path. -/
theorem wait_status_ne429_eq (code : ℕ) (ra : Option RetryAfterVal)
    (aN : Option ℕ) (u : ℚ) (hc : code ≠ 429) :
    wait_rate_limit_with_backoff ⟨some (.httpStatus code ra), aN⟩ u =
      min 10 ((2 : ℚ) ^ (normAttempt aN - 1)) +
        u * (1 / 10 * min 10 ((2 : ℚ) ^ (normAttempt aN - 1))) := by
  have h := (expTo_pos (normAttempt aN - 1)).ne'
  simp [wait_rate_limit_with_backoff, hc, h]

/-- A 429 with no `Retry-After` header takes the 429 exponential fallback. -/
theorem wait_429_noheader_eq (aN : Option ℕ) (u : ℚ) :
    wait_rate_limit_with_backoff ⟨some (.httpStatus 429 none), aN⟩ u =
      min 30 ((2 : ℚ) ^ (normAttempt aN - 1)) +
        u * (1 / 10 * min 30 ((2 : ℚ) ^ (normAttempt aN - 1))) := by
  have h := (exp429_pos (normAttempt aN - 1)).ne'
  simp [wait_rate_limit_with_backoff, h]

/-- A 429 with an unparseable `Retry-After` header sets the sentinel
`wait_seconds = 0.0`, fails the `> 0` test, and takes the 429 exponential
fallback. -/
theorem wait_429_unparseable_eq (aN : Option ℕ) (u : ℚ) :
    wait_rate_limit_with_backoff ⟨some (.httpStatus 429 (some .unparseable)), aN⟩ u =
      min 30 ((2 : ℚ) ^ (normAttempt aN - 1)) +
        u * (1 / 10 * min 30 ((2 : ℚ) ^ (normAttempt aN - 1))) := by
  have h := (exp429_pos (normAttempt aN - 1)).ne'
  simp [wait_rate_limit_with_backoff, h]

/-- A 429 whose header parses numerically always takes the header path: the
`max(wait_seconds, 1.0)` floor makes `wait_seconds ≥ 1 > 0` before the
`> 0` test, whatever the parsed value. -/
theorem wait_429_numeric_eq (s : ℚ) (aN : Option ℕ) (u : ℚ) :
    wait_rate_limit_with_backoff ⟨some (.httpStatus 429 (some (.numeric s))), aN⟩ u =
      min (max s 1) 120 + u * (1 / 10 * min (max s 1) 120) := by
  have h : (0 : ℚ) < max s 1 := lt_of_lt_of_le one_pos (le_max_right s 1)
  simp [wait_rate_limit_with_backoff, if_pos h]

/-- A 429 whose header parses as an HTTP-date always takes the header path,
with the delta floored at 0 and then at 1. -/
theorem wait_429_httpDate_eq (d : ℚ) (aN : Option ℕ) (u : ℚ) :
    wait_rate_limit_with_backoff ⟨some (.httpStatus 429 (some (.httpDate d))), aN⟩ u =
      min (max (max d 0) 1) 120 + u * (1 / 10 * min (max (max d 0) 1) 120) := by
  have h : (0 : ℚ) < max (max d 0) 1 := lt_of_lt_of_le one_pos (le_max_right _ 1)
  simp [wait_rate_limit_with_backoff, if_pos h]

/-! ### Claims -/

/-- C1, counterexample: at attempt 2 with jitter draw 0, a `Retry-After`
header that parses to 0 seconds (numeric `0`, or an HTTP-date 3 seconds in
the past, delta floored at 0) yields the wait 1 (header path, floored at
1.0), while the 429 exponential fallback at the same attempt and draw is
`min(30, 2^(2-1)) = 2`: the function does not fall through to the fallback. -/
theorem c1_counterexample :
    wait_rate_limit_with_backoff
        ⟨some (.httpStatus 429 (some (.numeric 0))), some 2⟩ 0 = 1 ∧
    wait_rate_limit_with_backoff
        ⟨some (.httpStatus 429 (some (.httpDate (-3)))), some 2⟩ 0 = 1 ∧
    wait_rate_limit_with_backoff
        ⟨some (.httpStatus 429 none), some 2⟩ 0 = 2 ∧
    (1 : ℚ) ≠ 2 := by
  refine ⟨?_, ?_, ?_, by norm_num⟩ <;>
    norm_num [wait_rate_limit_with_backoff, normAttempt, min_def, max_def]

/-- C1, amended: a `Retry-After` header that parses to 0 seconds (numeric
`0`, or an HTTP-date at or before now, whose delta is floored at 0) does
not fall through to the exponential fallback: the `max(wait_seconds, 1.0)`
floor is applied before the `> 0` test, so the header path returns
`1.0` plus jitter.  The fallback is reached only when both parses fail, in
which case the result coincides with the no-header case. -/
theorem c1_zero_header_floored (aN : Option ℕ) (u d : ℚ) (hd : d ≤ 0) :
    wait_rate_limit_with_backoff
        ⟨some (.httpStatus 429 (some (.numeric 0))), aN⟩ u = 1 + u * (1 / 10) ∧
    wait_rate_limit_with_backoff
        ⟨some (.httpStatus 429 (some (.httpDate d))), aN⟩ u = 1 + u * (1 / 10) ∧
    wait_rate_limit_with_backoff
        ⟨some (.httpStatus 429 (some .unparseable)), aN⟩ u =
      wait_rate_limit_with_backoff ⟨some (.httpStatus 429 none), aN⟩ u := by
  refine ⟨?_, ?_, ?_⟩
  · rw [wait_429_numeric_eq]
    norm_num
  · rw [wait_429_httpDate_eq]
    rw [max_eq_right hd]
    norm_num
  · rw [wait_429_unparseable_eq, wait_429_noheader_eq]

/-- C1, witness for `c1_zero_header_floored` at attempt 3, jitter draw 1/2,
date delta −7. -/
theorem c1_zero_header_floored_witness :
    wait_rate_limit_with_backoff
        ⟨some (.httpStatus 429 (some (.numeric 0))), some 3⟩ (1 / 2) =
      1 + 1 / 2 * (1 / 10) ∧
    wait_rate_limit_with_backoff
        ⟨some (.httpStatus 429 (some (.httpDate (-7)))), some 3⟩ (1 / 2) =
      1 + 1 / 2 * (1 / 10) ∧
    wait_rate_limit_with_backoff
        ⟨some (.httpStatus 429 (some .unparseable)), some 3⟩ (1 / 2) =
      wait_rate_limit_with_backoff ⟨some (.httpStatus 429 none), some 3⟩ (1 / 2) :=
  c1_zero_header_floored (some 3) (1 / 2) (-7) (by norm_num)

/-- C2, counterexample: a 429 whose header parses to 200 seconds is capped at
120, and the jitter is added on top of the cap: at jitter draw 1/2 (within
`[0,1)`) the returned wait is 126, which exceeds 120. -/
theorem c2_counterexample :
    wait_rate_limit_with_backoff
        ⟨some (.httpStatus 429 (some (.numeric 200))), some 1⟩ (1 / 2) = 126 ∧
    ¬ wait_rate_limit_with_backoff
        ⟨some (.httpStatus 429 (some (.numeric 200))), some 1⟩ (1 / 2) ≤ 120 ∧
    (0 : ℚ) ≤ 1 / 2 ∧ (1 / 2 : ℚ) < 1 := by
  have h : wait_rate_limit_with_backoff
      ⟨some (.httpStatus 429 (some (.numeric 200))), some 1⟩ (1 / 2) = 126 := by
    norm_num [wait_rate_limit_with_backoff, normAttempt, min_def, max_def]
  refine ⟨h, ?_, by norm_num, by norm_num⟩
  rw [h]
  norm_num

/-- C2, amended: for every failure, attempt and jitter draw in `[0,1]`, the
returned wait is at most 132 (= 120 + 120/10, the cap plus maximal jitter)
on the rate-limit path, and at most 11 (= 10 + 10/10) on the timeout path
(every non-429 failure, including a missing exception). -/
theorem c2_wait_caps (exc : Option Failure) (aN : Option ℕ) (u : ℚ)
    (hu0 : 0 ≤ u) (hu1 : u ≤ 1) :
    wait_rate_limit_with_backoff ⟨exc, aN⟩ u ≤ 132 ∧
    ((∀ ra, exc ≠ some (.httpStatus 429 ra)) →
      wait_rate_limit_with_backoff ⟨exc, aN⟩ u ≤ 11) := by
  have h2 : (0 : ℚ) < (2 : ℚ) ^ (normAttempt aN - 1) := pow_pos (by norm_num) _
  have hToBound : min (10 : ℚ) ((2 : ℚ) ^ (normAttempt aN - 1)) +
      u * (1 / 10 * min (10 : ℚ) ((2 : ℚ) ^ (normAttempt aN - 1))) ≤ 11 := by
    have := jitter_le (b := min (10 : ℚ) ((2 : ℚ) ^ (normAttempt aN - 1)))
      (c := 10) (le_of_lt (expTo_pos _)) (min_le_left _ _) hu0 hu1
    calc _ ≤ (10 : ℚ) + 1 / 10 * 10 := this
    _ = 11 := by norm_num
  match exc with
  | none =>
    rw [wait_none_eq]
    exact ⟨hToBound.trans (by norm_num), fun _ => hToBound⟩
  | some (.timeout k) =>
    rw [wait_timeout_eq]
    exact ⟨hToBound.trans (by norm_num), fun _ => hToBound⟩
  | some .other =>
    rw [wait_other_eq]
    exact ⟨hToBound.trans (by norm_num), fun _ => hToBound⟩
  | some (.httpStatus code ra) =>
    by_cases hc : code = 429
    · subst hc
      match ra with
      | none =>
        rw [wait_429_noheader_eq]
        have := jitter_le (b := min (30 : ℚ) ((2 : ℚ) ^ (normAttempt aN - 1)))
          (c := 30) (le_of_lt (exp429_pos _)) (min_le_left _ _) hu0 hu1
        refine ⟨by linarith, fun hne => absurd rfl (hne none)⟩
      | some .unparseable =>
        rw [wait_429_unparseable_eq]
        have := jitter_le (b := min (30 : ℚ) ((2 : ℚ) ^ (normAttempt aN - 1)))
          (c := 30) (le_of_lt (exp429_pos _)) (min_le_left _ _) hu0 hu1
        refine ⟨by linarith, fun hne => absurd rfl (hne _)⟩
      | some (.numeric s) =>
        rw [wait_429_numeric_eq]
        have hb0 : (0 : ℚ) ≤ min (max s 1) 120 :=
          le_min (le_trans zero_le_one (le_max_right s 1)) (by norm_num)
        have := jitter_le (b := min (max s 1) 120) (c := 120)
          hb0 (min_le_right _ _) hu0 hu1
        refine ⟨by linarith, fun hne => absurd rfl (hne _)⟩
      | some (.httpDate d) =>
        rw [wait_429_httpDate_eq]
        have hb0 : (0 : ℚ) ≤ min (max (max d 0) 1) 120 :=
          le_min (le_trans zero_le_one (le_max_right _ 1)) (by norm_num)
        have := jitter_le (b := min (max (max d 0) 1) 120) (c := 120)
          hb0 (min_le_right _ _) hu0 hu1
        refine ⟨by linarith, fun hne => absurd rfl (hne _)⟩
    · rw [wait_status_ne429_eq code ra aN u hc]
      exact ⟨hToBound.trans (by norm_num), fun _ => hToBound⟩

/-- C2, witness for `c2_wait_caps` at a 429 with header 200, attempt 1,
jitter draw 1/2. -/
theorem c2_wait_caps_witness :
    wait_rate_limit_with_backoff
        ⟨some (.httpStatus 429 (some (.numeric 200))), some 1⟩ (1 / 2) ≤ 132 :=
  (c2_wait_caps (some (.httpStatus 429 (some (.numeric 200)))) (some 1) (1 / 2)
    (by norm_num) (by norm_num)).1

/-- C3, counterexample: at attempt 5 with jitter draw 0 the timeout-path wait
is `min(10, 2^4) = 10`, which is below the claimed lower bound
`2^(5-1) = 16` (the claimed interval `[16, 11]` is empty there). -/
theorem c3_counterexample :
    wait_rate_limit_with_backoff ⟨some (.timeout .connect), some 5⟩ 0 = 10 ∧
    ¬ ((2 : ℚ) ^ (5 - 1) ≤
        wait_rate_limit_with_backoff ⟨some (.timeout .connect), some 5⟩ 0) := by
  have h : wait_rate_limit_with_backoff ⟨some (.timeout .connect), some 5⟩ 0 = 10 := by
    rw [wait_timeout_eq]
    norm_num [normAttempt, min_def]
  refine ⟨h, ?_⟩
  rw [h]
  norm_num

/-- C3, amended: for attempts `a ≥ 1` and jitter draws in `[0,1)`, the
timeout-path wait lies in `[min(10, 2^(a-1)), 1.1 · min(10, 2^(a-1))]`
(the lower bound is the capped base, not the raw `2^(a-1)`), and for a
fixed draw it is monotonically non-decreasing in the attempt number. -/
theorem c3_timeout_bounds (k : TimeoutKind) (a b : ℕ) (u : ℚ)
    (ha : 1 ≤ a) (hab : a ≤ b) (hu0 : 0 ≤ u) (hu1 : u < 1) :
    (min 10 ((2 : ℚ) ^ (a - 1)) ≤
        wait_rate_limit_with_backoff ⟨some (.timeout k), some a⟩ u ∧
      wait_rate_limit_with_backoff ⟨some (.timeout k), some a⟩ u ≤
        11 / 10 * min 10 ((2 : ℚ) ^ (a - 1))) ∧
    wait_rate_limit_with_backoff ⟨some (.timeout k), some a⟩ u ≤
      wait_rate_limit_with_backoff ⟨some (.timeout k), some b⟩ u := by
  rw [wait_timeout_eq, wait_timeout_eq, normAttempt_some ha,
    normAttempt_some (ha.trans hab)]
  have hpos := expTo_pos (a - 1)
  refine ⟨⟨jitter_ge hpos.le hu0, ?_⟩, ?_⟩
  · have := jitter_le (b := min 10 ((2 : ℚ) ^ (a - 1)))
      (c := min 10 ((2 : ℚ) ^ (a - 1))) hpos.le le_rfl hu0 hu1.le
    linarith
  · exact jitter_mono hpos.le
      (min_le_min le_rfl (pow_le_pow_right₀ one_le_two (by omega))) hu0

/-- C3, witness for `c3_timeout_bounds` at attempts 3 ≤ 7, jitter draw 1/2. -/
theorem c3_timeout_bounds_witness :
    (min 10 ((2 : ℚ) ^ (3 - 1)) ≤
        wait_rate_limit_with_backoff ⟨some (.timeout .read), some 3⟩ (1 / 2) ∧
      wait_rate_limit_with_backoff ⟨some (.timeout .read), some 3⟩ (1 / 2) ≤
        11 / 10 * min 10 ((2 : ℚ) ^ (3 - 1))) ∧
    wait_rate_limit_with_backoff ⟨some (.timeout .read), some 3⟩ (1 / 2) ≤
      wait_rate_limit_with_backoff ⟨some (.timeout .read), some 7⟩ (1 / 2) :=
  c3_timeout_bounds .read 3 7 (1 / 2) (by norm_num) (by norm_num)
    (by norm_num) (by norm_num)

/-- C4, counterexample: at attempt 6 with jitter draw 0, the 429 fallback
wait is `min(30, 2^5) = 30`, below the claimed lower bound `2^(6-1) = 32`. -/
theorem c4_counterexample :
    wait_rate_limit_with_backoff ⟨some (.httpStatus 429 none), some 6⟩ 0 = 30 ∧
    ¬ ((2 : ℚ) ^ (6 - 1) ≤
        wait_rate_limit_with_backoff ⟨some (.httpStatus 429 none), some 6⟩ 0) := by
  have h : wait_rate_limit_with_backoff ⟨some (.httpStatus 429 none), some 6⟩ 0 = 30 := by
    rw [wait_429_noheader_eq]
    norm_num [normAttempt, min_def]
  refine ⟨h, ?_⟩
  rw [h]
  norm_num

/-- C4, amended: for attempts `a ≥ 1` and jitter draws in `[0,1)`, the 429
exponential-fallback wait lies in
`[min(30, 2^(a-1)), 1.1 · min(30, 2^(a-1))]` (the lower bound is the capped
base, not the raw `2^(a-1)`). -/
theorem c4_fallback_bounds (a : ℕ) (u : ℚ) (ha : 1 ≤ a) (hu0 : 0 ≤ u)
    (hu1 : u < 1) :
    min 30 ((2 : ℚ) ^ (a - 1)) ≤
      wait_rate_limit_with_backoff ⟨some (.httpStatus 429 none), some a⟩ u ∧
    wait_rate_limit_with_backoff ⟨some (.httpStatus 429 none), some a⟩ u ≤
      11 / 10 * min 30 ((2 : ℚ) ^ (a - 1)) := by
  rw [wait_429_noheader_eq, normAttempt_some ha]
  have hpos := exp429_pos (a - 1)
  refine ⟨jitter_ge hpos.le hu0, ?_⟩
  have := jitter_le (b := min 30 ((2 : ℚ) ^ (a - 1)))
    (c := min 30 ((2 : ℚ) ^ (a - 1))) hpos.le le_rfl hu0 hu1.le
  linarith

/-- C4, witness for `c4_fallback_bounds` at attempt 4, jitter draw 1/3. -/
theorem c4_fallback_bounds_witness :
    min 30 ((2 : ℚ) ^ (4 - 1)) ≤
      wait_rate_limit_with_backoff ⟨some (.httpStatus 429 none), some 4⟩ (1 / 3) ∧
    wait_rate_limit_with_backoff ⟨some (.httpStatus 429 none), some 4⟩ (1 / 3) ≤
      11 / 10 * min 30 ((2 : ℚ) ^ (4 - 1)) :=
  c4_fallback_bounds 4 (1 / 3) (by norm_num) (by norm_num) (by norm_num)

/-- C5: a 429 whose `Retry-After` header parses as a positive number `w`
returns `min(max(w, 1), 120)` plus a jitter of at most 10% of that base, for
any attempt number; with header `0.3` the result lies in `[1, 1.1]` (the 1.0
floor applies), and with header `5` in `[5, 5.5]`. -/
theorem c5_header_positive (w u : ℚ) (aN : Option ℕ) (hw : 0 < w)
    (hu0 : 0 ≤ u) (hu1 : u ≤ 1) :
    wait_rate_limit_with_backoff
        ⟨some (.httpStatus 429 (some (.numeric w))), aN⟩ u =
      min (max w 1) 120 + u * (1 / 10 * min (max w 1) 120) ∧
    min (max w 1) 120 ≤
      wait_rate_limit_with_backoff
        ⟨some (.httpStatus 429 (some (.numeric w))), aN⟩ u ∧
    wait_rate_limit_with_backoff
        ⟨some (.httpStatus 429 (some (.numeric w))), aN⟩ u ≤
      min (max w 1) 120 + 1 / 10 * min (max w 1) 120 ∧
    (w = 3 / 10 →
      1 ≤ wait_rate_limit_with_backoff
            ⟨some (.httpStatus 429 (some (.numeric w))), aN⟩ u ∧
      wait_rate_limit_with_backoff
            ⟨some (.httpStatus 429 (some (.numeric w))), aN⟩ u ≤ 11 / 10) ∧
    (w = 5 →
      5 ≤ wait_rate_limit_with_backoff
            ⟨some (.httpStatus 429 (some (.numeric w))), aN⟩ u ∧
      wait_rate_limit_with_backoff
            ⟨some (.httpStatus 429 (some (.numeric w))), aN⟩ u ≤ 11 / 2) := by
  rw [wait_429_numeric_eq]
  have hb1 : (1 : ℚ) ≤ min (max w 1) 120 :=
    le_min (le_max_right w 1) (by norm_num)
  have hb0 : (0 : ℚ) ≤ min (max w 1) 120 := zero_le_one.trans hb1
  refine ⟨rfl, jitter_ge hb0 hu0,
    jitter_le hb0 le_rfl hu0 hu1, fun hw3 => ?_, fun hw5 => ?_⟩
  · subst hw3
    rw [max_eq_right (by norm_num : (3 : ℚ) / 10 ≤ 1),
      min_eq_left (by norm_num : (1 : ℚ) ≤ 120)]
    constructor <;> nlinarith
  · subst hw5
    rw [max_eq_left (by norm_num : (1 : ℚ) ≤ 5),
      min_eq_left (by norm_num : (5 : ℚ) ≤ 120)]
    constructor <;> nlinarith

/-- C5, witness for `c5_header_positive` with header `5`, no attempt number,
jitter draw 1. -/
theorem c5_header_positive_witness :
    wait_rate_limit_with_backoff
        ⟨some (.httpStatus 429 (some (.numeric 5))), none⟩ 1 =
      min (max 5 1) 120 + 1 * (1 / 10 * min (max 5 1) 120) :=
  (c5_header_positive 5 1 none (by norm_num) (by norm_num) (by norm_num)).1

/-- C6: the combined classifier accepts exactly the HTTP status failures
with code 429 and the connect/read timeouts; in particular it rejects a 500
status failure and a generic exception. -/
theorem c6_retryable_iff :
    (∀ f : Failure, should_retry_on_rate_limit_or_timeout f = true ↔
      ((∃ ra, f = .httpStatus 429 ra) ∨ ∃ k, f = .timeout k)) ∧
    should_retry_on_rate_limit_or_timeout (.httpStatus 500 none) = false ∧
    should_retry_on_rate_limit_or_timeout .other = false := by
  refine ⟨fun f => ?_, rfl, rfl⟩
  match f with
  | .httpStatus code ra =>
    simp [should_retry_on_rate_limit_or_timeout, should_retry_on_rate_limit,
      should_retry_on_timeout]
  | .timeout k =>
    simp [should_retry_on_rate_limit_or_timeout, should_retry_on_rate_limit,
      should_retry_on_timeout]
  | .other =>
    simp [should_retry_on_rate_limit_or_timeout, should_retry_on_rate_limit,
      should_retry_on_timeout]

/-- C7: a 429 whose `Retry-After` header parses neither as a number nor as an
HTTP-date yields exactly the same wait as a 429 with no header, at every
attempt number and jitter draw; the embedded function is total, so the parse
failure is absorbed rather than propagated. -/
theorem c7_unparseable_eq_noheader (aN : Option ℕ) (u : ℚ) :
    wait_rate_limit_with_backoff
        ⟨some (.httpStatus 429 (some .unparseable)), aN⟩ u =
      wait_rate_limit_with_backoff ⟨some (.httpStatus 429 none), aN⟩ u := by
  rw [wait_429_unparseable_eq, wait_429_noheader_eq]

/-- C8: for every exception shape, every attempt number (normalized or not)
and every nonnegative jitter draw, the wait strategy returns a nonnegative
number of seconds (and, being a total function, never raises). -/
theorem c8_nonneg (exc : Option Failure) (aN : Option ℕ) (u : ℚ)
    (hu : 0 ≤ u) : 0 ≤ wait_rate_limit_with_backoff ⟨exc, aN⟩ u := by
  have nn : ∀ b : ℚ, 0 ≤ b → 0 ≤ b + u * (1 / 10 * b) := fun b hb => by nlinarith
  match exc with
  | none =>
    rw [wait_none_eq]; exact nn _ (expTo_pos _).le
  | some (.timeout k) =>
    rw [wait_timeout_eq]; exact nn _ (expTo_pos _).le
  | some .other =>
    rw [wait_other_eq]; exact nn _ (expTo_pos _).le
  | some (.httpStatus code ra) =>
    by_cases hc : code = 429
    · subst hc
      match ra with
      | none =>
        rw [wait_429_noheader_eq]; exact nn _ (exp429_pos _).le
      | some .unparseable =>
        rw [wait_429_unparseable_eq]; exact nn _ (exp429_pos _).le
      | some (.numeric s) =>
        rw [wait_429_numeric_eq]
        exact nn _ (le_min (zero_le_one.trans (le_max_right s 1)) (by norm_num))
      | some (.httpDate d) =>
        rw [wait_429_httpDate_eq]
        exact nn _ (le_min (zero_le_one.trans (le_max_right _ 1)) (by norm_num))
    · rw [wait_status_ne429_eq code ra aN u hc]; exact nn _ (expTo_pos _).le

/-- C8, witness for `c8_nonneg` at a missing exception, missing attempt
number, jitter draw 0. -/
theorem c8_nonneg_witness :
    0 ≤ wait_rate_limit_with_backoff ⟨none, none⟩ 0 :=
  c8_nonneg none none 0 le_rfl

/-- C9: the embedded wait strategy is total, and on every non-retryable
input (missing exception, non-429 HTTP status such as 500, generic
exception) it returns the timeout-path value `min(10, 2^(attempt-1))` plus
jitter — the same wait as for a timeout failure. -/
theorem c9_nonretryable_timeout_path (exc : Option Failure) (aN : Option ℕ)
    (u : ℚ) (h : retryable_state exc = false) :
    wait_rate_limit_with_backoff ⟨exc, aN⟩ u =
      min 10 ((2 : ℚ) ^ (normAttempt aN - 1)) +
        u * (1 / 10 * min 10 ((2 : ℚ) ^ (normAttempt aN - 1))) ∧
    wait_rate_limit_with_backoff ⟨exc, aN⟩ u =
      wait_rate_limit_with_backoff ⟨some (.timeout .connect), aN⟩ u := by
  have ht := wait_timeout_eq .connect aN u
  match exc with
  | none =>
    rw [wait_none_eq]; exact ⟨rfl, ht.symm⟩
  | some .other =>
    rw [wait_other_eq]; exact ⟨rfl, ht.symm⟩
  | some (.timeout k) =>
    simp [retryable_state, should_retry_on_rate_limit_or_timeout,
      should_retry_on_timeout] at h
  | some (.httpStatus code ra) =>
    have hc : code ≠ 429 := by
      intro hcc
      subst hcc
      simp [retryable_state, should_retry_on_rate_limit_or_timeout,
        should_retry_on_rate_limit] at h
    rw [wait_status_ne429_eq code ra aN u hc]
    exact ⟨rfl, ht.symm⟩

/-- C9, witness for `c9_nonretryable_timeout_path` at a 500 status failure,
attempt 2, jitter draw 1/3. -/
theorem c9_nonretryable_timeout_path_witness :
    wait_rate_limit_with_backoff ⟨some (.httpStatus 500 none), some 2⟩ (1 / 3) =
      min 10 ((2 : ℚ) ^ (normAttempt (some 2) - 1)) +
        1 / 3 * (1 / 10 * min 10 ((2 : ℚ) ^ (normAttempt (some 2) - 1))) ∧
    wait_rate_limit_with_backoff ⟨some (.httpStatus 500 none), some 2⟩ (1 / 3) =
      wait_rate_limit_with_backoff ⟨some (.timeout .connect), some 2⟩ (1 / 3) :=
  c9_nonretryable_timeout_path (some (.httpStatus 500 none)) (some 2) (1 / 3) rfl

/-! ### The filename sanitizer -/

/-- One `re.sub(r"X+", r, s)` step for a single-character class `X`: every
maximal run of characters satisfying `p` is replaced by the single character
`r`.  The flag records whether the previous character belonged to a run. -/
def collapseRunsAux (p : Char → Bool) (r : Char) : Bool → List Char → List Char
  | _, [] => []
  | prevRun, c :: cs =>
    if p c then
      if prevRun then collapseRunsAux p r true cs
      else r :: collapseRunsAux p r true cs
    else c :: collapseRunsAux p r false cs

/-- `re.sub` with a one-character-class `+` pattern and a one-character
replacement. -/
def collapseRuns (p : Char → Bool) (r : Char) (l : List Char) : List Char :=
  collapseRunsAux p r false l

/-- `safe_filename(name, default_ext=".html")`, on the character list of the
string.  The Unicode services the source invokes are Python-runtime
externals and are passed as explicit parameters: `nfkc` is
`unicodedata.normalize("NFKC", ·)`, `isalnum` is single-character
`str.isalnum`, `isspace` decides both the regex class `\s` and the
whitespace stripped by `str.strip()`, and `lower` is single-character
`str.lower`.  The pipeline follows the source line by line:
normalize and strip; replace runs of backslash/slash by an underscore;
collapse whitespace runs to one space; keep only alphanumerics and
characters of the literal `"._- "`; strip trailing dots and spaces; append
`default_ext` when the lowercased name does not already end with it. -/
def safe_filename (nfkc : List Char → List Char) (isalnum isspace : Char → Bool)
    (lower : Char → Char) (name : List Char) (default_ext : List Char) :
    List Char :=
  let n1 := List.rdropWhile isspace ((nfkc name).dropWhile isspace)
  let n2 := collapseRuns (fun c => c == '\\' || c == '/') '_' n1
  let n3 := collapseRuns isspace ' ' n2
  let n4 := n3.filter (fun c => isalnum c || (c == '.' || c == '_' || c == '-' || c == ' '))
  let n5 := List.rdropWhile (fun c => c == '.' || c == ' ') n4
  if default_ext.isSuffixOf (n5.map lower) then n5 else n5 ++ default_ext

/-- Dropping from the back keeps only characters of the original list. -/
theorem mem_of_mem_rdropWhile {p : Char → Bool} {l : List Char} {c : Char}
    (hc : c ∈ List.rdropWhile p l) : c ∈ l := by
  rw [List.rdropWhile, List.mem_reverse] at hc
  exact List.mem_reverse.mp ((List.dropWhile_sublist p).subset hc)

/-- A character surviving the filter-then-rstrip tail of the sanitizer is an
alphanumeric or one of the kept punctuation characters. -/
theorem filter_rstrip_mem (isalnum : Char → Bool) (l : List Char) (c : Char)
    (hc : c ∈ List.rdropWhile (fun c => c == '.' || c == ' ')
      (l.filter (fun c => isalnum c || (c == '.' || c == '_' || c == '-' || c == ' ')))) :
    isalnum c = true ∨ c = '.' ∨ c = '_' ∨ c = '-' ∨ c = ' ' := by
  have hc4 := mem_of_mem_rdropWhile hc
  have h2 := (List.mem_filter.mp hc4).2
  simp only [Bool.or_eq_true, beq_iff_eq] at h2
  tauto

/-- The last character left by `rstrip` fails the stripped predicate. -/
theorem rdropWhile_getLast_false (p : Char → Bool) (l : List Char) (c : Char)
    (h : (List.rdropWhile p l).getLast? = some c) : p c = false := by
  have hne : List.rdropWhile p l ≠ [] := by
    intro he
    rw [he] at h
    exact Option.noConfusion h
  have h2 := List.getLast?_eq_getLast_of_ne_nil hne
  rw [h] at h2
  have h3 : c = (List.rdropWhile p l).getLast hne := Option.some.inj h2
  have h4 := List.rdropWhile_last_not p l hne
  rw [← h3] at h4
  simpa using h4

/-- C10: every character of `safe_filename`'s result is alphanumeric, one of
`'.'`, `'_'`, `'-'`, `' '`, or a character of `default_ext`; when
alphanumerics exclude the two slashes and `default_ext` contains neither,
the result contains no `'/'` and no `'\'`; and a trailing `'.'` or `' '`
can only be the trailing character of the appended `default_ext`. -/
theorem c10_safe_filename_spec (nfkc : List Char → List Char)
    (isalnum isspace : Char → Bool) (lower : Char → Char)
    (name default_ext : List Char)
    (hs : isalnum '/' = false) (hb : isalnum '\\' = false)
    (hes : '/' ∉ default_ext) (heb : '\\' ∉ default_ext) :
    (∀ c ∈ safe_filename nfkc isalnum isspace lower name default_ext,
      isalnum c = true ∨ c = '.' ∨ c = '_' ∨ c = '-' ∨ c = ' ' ∨ c ∈ default_ext) ∧
    '/' ∉ safe_filename nfkc isalnum isspace lower name default_ext ∧
    '\\' ∉ safe_filename nfkc isalnum isspace lower name default_ext ∧
    (∀ c, (safe_filename nfkc isalnum isspace lower name default_ext).getLast? = some c →
      c = '.' ∨ c = ' ' → default_ext.getLast? = some c) := by
  have hchar : ∀ c ∈ safe_filename nfkc isalnum isspace lower name default_ext,
      isalnum c = true ∨ c = '.' ∨ c = '_' ∨ c = '-' ∨ c = ' ' ∨ c ∈ default_ext := by
    intro c hc
    simp only [safe_filename] at hc
    split at hc
    · have := filter_rstrip_mem isalnum _ c hc
      tauto
    · rcases List.mem_append.mp hc with h | h
      · have := filter_rstrip_mem isalnum _ c h
        tauto
      · tauto
  refine ⟨hchar, ?_, ?_, ?_⟩
  · intro hmem
    rcases hchar '/' hmem with h | h | h | h | h | h
    · rw [hs] at h
      exact Bool.noConfusion h
    · exact absurd h (by decide)
    · exact absurd h (by decide)
    · exact absurd h (by decide)
    · exact absurd h (by decide)
    · exact hes h
  · intro hmem
    rcases hchar '\\' hmem with h | h | h | h | h | h
    · rw [hb] at h
      exact Bool.noConfusion h
    · exact absurd h (by decide)
    · exact absurd h (by decide)
    · exact absurd h (by decide)
    · exact absurd h (by decide)
    · exact heb h
  · intro c hlast hdot
    simp only [safe_filename] at hlast
    split at hlast
    · have hfalse := rdropWhile_getLast_false _ _ c hlast
      rcases hdot with h | h <;> subst h <;> simp at hfalse
    · rename_i hsuf
      have hne : default_ext ≠ [] := by
        intro he
        subst he
        exact hsuf (by simp [List.isSuffixOf])
      rw [List.getLast?_append_of_ne_nil _ hne] at hlast
      exact hlast

/-- C10, witness for `c10_safe_filename_spec` with ASCII instances of the
Unicode services and input `"a/b "` with the default extension. -/
theorem c10_safe_filename_spec_witness :
    '/' ∉ safe_filename id Char.isAlphanum Char.isWhitespace Char.toLower
      ("a/b ").toList (".html").toList :=
  (c10_safe_filename_spec id Char.isAlphanum Char.isWhitespace Char.toLower
    ("a/b ").toList (".html").toList (by decide) (by decide) (by decide)
    (by decide)).2.1

end Airweave
